import Mathlib

/-!
Verification of the UrbanPiper batch order fetcher (`fetch_orders.py`).

The development shallowly embeds `UrbanPiperOrderFetcher`: the per-identifier
worker `process_single_order`, the collaborators `fetch_order` and
`save_order`, and the batch driver `fetch_all_orders`.  External behaviour
(the HTTP endpoint's response per identifier and whether the local file write
succeeds) is packaged in an `Env` record; the mutable instance state (the
`orders/` directory contents and the three counters) is a `FetcherState`
record threaded explicitly.

The batch driver runs workers from a thread pool; every counter update is
taken under the instance lock and, for distinct identifiers, workers touch
disjoint store keys, so the final counters and store contents are modelled by
processing the identifier list sequentially in submission order.  The state
additionally carries three observation lists (`outcomes`, `fetched`,
`httpIssued`) recording, per processed identifier, the worker outcome,
whether `fetch_order` was invoked, and whether the HTTP POST was issued;
these only record what the corresponding Python calls do.
-/

/-- JSON documents, the shape of parsed HTTP response bodies and of the parsed
content of files under `orders/`. -/
inductive Json where
  | null : Json
  | bool (b : Bool) : Json
  | num (n : Int) : Json
  | str (s : String) : Json
  | arr (elts : List Json) : Json
  | obj (fields : List (String × Json)) : Json

/-- Result of `session.post` for one identifier: either the call raised (a
transport error) or a response arrived with a status code and a body.  The
body is recorded as `some d` when `response.json()` parses it to `d` and as
`none` when `response.json()` raises `json.JSONDecodeError`. -/
inductive HttpResult where
  | raised : HttpResult
  | response (status : Nat) (body : Option Json) : HttpResult

/-- External behaviour of one run: the HTTP endpoint's answer for each
identifier, and whether the local file write in `save_order` succeeds for
each identifier.  A failing write is modelled as `open` raising before the
file is created; the finer-grained file states during a single write are
modelled separately for the atomicity analysis. -/
structure Env where
  http : String → HttpResult
  saveOk : String → Bool

/-- Outcome of one `process_single_order` call: the strings "skipped",
"success", "failed" it returns, or the case where it raises because
`save_order` raised a local I/O error. -/
inductive Outcome where
  | skipped : Outcome
  | success : Outcome
  | failed : Outcome
  | raisedSave : Outcome
deriving DecidableEq

/-- Mutable state of a `UrbanPiperOrderFetcher` instance: the parsed content
of the `orders/` directory keyed by identifier (`orders/<id>.json`), and the
three counters.  `outcomes`, `fetched` and `httpIssued` are run observations
(see the module docstring). -/
structure FetcherState where
  store : String → Option Json
  successful_fetches : Nat
  failed_fetches : Nat
  skipped_fetches : Nat
  outcomes : List (String × Outcome)
  fetched : List String
  httpIssued : List String

/-- Digit run of a Python integer literal: decimal digits with single
underscores strictly between digits.  `prevDigit` records whether the
previous character was a digit (so an underscore is currently allowed).
Returns the value when the run is valid, `none` when `int()` raises. -/
def pyDigitsAux : List Char → Nat → Bool → Option Nat
  | [], acc, prevDigit => if prevDigit then some acc else none
  | c :: cs, acc, prevDigit =>
    if c.isDigit then pyDigitsAux cs (acc * 10 + (c.toNat - 48)) true
    else if c == '_' && prevDigit then pyDigitsAux cs acc false
    else none

/-- Value of a nonempty digit run, as accepted by Python `int()`. -/
def pyDigits (cs : List Char) : Option Nat :=
  match cs with
  | [] => none
  | _ => pyDigitsAux cs 0 false

/-- Strip leading and trailing whitespace, as Python `int()` does to its
string argument. -/
def stripWs (cs : List Char) : List Char :=
  ((cs.dropWhile Char.isWhitespace).reverse.dropWhile Char.isWhitespace).reverse

/-- Python `int(order_id)` on a string: strip whitespace, optional sign, then
a valid digit run.  `none` models `int()` raising `ValueError`. -/
def pythonIntParse (s : String) : Option Int :=
  match stripWs s.toList with
  | '+' :: rest => (pyDigits rest).map (fun n => (n : Int))
  | '-' :: rest => (pyDigits rest).map (fun n => -(n : Int))
  | rest => (pyDigits rest).map (fun n => (n : Int))

/-- `UrbanPiperOrderFetcher.fetch_order`.  Inside its `try` block the payload
is built first — `int(order_id)` raising is caught by the `except` clause and
yields `None` with no HTTP request issued.  Otherwise `session.post` runs: a
raised transport error is caught and yields `None`; a 200 response with a
parseable body `data` yields the document `{"data": data}`; a 200 response
with an unparseable body, or any non-200 status, yields `None`.  The second
component records whether the HTTP POST was issued. -/
def fetch_order (env : Env) (order_id : String) : Option Json × Bool :=
  match pythonIntParse order_id with
  | none => (none, false)
  | some _ =>
    match env.http order_id with
    | HttpResult.raised => (none, true)
    | HttpResult.response status body =>
      if status = 200 then
        match body with
        | some data => (some (Json.obj [("data", data)]), true)
        | none => (none, true)
      else (none, true)

/-- `UrbanPiperOrderFetcher.process_single_order`: check existence of
`orders/<order_id>.json`; if present increment `skipped_fetches` and return
"skipped"; else call `fetch_order`; on a document, `save_order` writes it and
`successful_fetches` is incremented ("success") — unless the write raises, in
which case no counter is touched and the exception propagates
(`Outcome.raisedSave`); on `None` increment `failed_fetches` ("failed"). -/
def process_single_order (env : Env) (st : FetcherState) (order_id : String) :
    FetcherState × Outcome :=
  if (st.store order_id).isSome then
    ({ st with skipped_fetches := st.skipped_fetches + 1 }, Outcome.skipped)
  else
    let fr := fetch_order env order_id
    let st1 := { st with
      fetched := order_id :: st.fetched,
      httpIssued := if fr.2 then order_id :: st.httpIssued else st.httpIssued }
    match fr.1 with
    | some order_data =>
      if env.saveOk order_id then
        ({ st1 with
            store := fun k => if k = order_id then some order_data else st1.store k,
            successful_fetches := st1.successful_fetches + 1 }, Outcome.success)
      else (st1, Outcome.raisedSave)
    | none =>
      ({ st1 with failed_fetches := st1.failed_fetches + 1 }, Outcome.failed)

/-- One iteration of the `as_completed` loop in `fetch_all_orders`: take the
worker's result; an exception that propagated out of `process_single_order`
is caught by the `except` clause, which increments `failed_fetches` under the
lock, and the loop moves on to the next future.  The worker's outcome for the
identifier is recorded in `outcomes`. -/
def run_step (env : Env) (st : FetcherState) (order_id : String) : FetcherState :=
  let pr := process_single_order env st order_id
  let st2 :=
    match pr.2 with
    | Outcome.raisedSave => { pr.1 with failed_fetches := pr.1.failed_fetches + 1 }
    | _ => pr.1
  { st2 with outcomes := (order_id, pr.2) :: st2.outcomes }

/-- Processing a list of identifiers in submission order. -/
def runList (env : Env) (st : FetcherState) (ids : List String) : FetcherState :=
  ids.foldl (run_step env) st

/-- The counter reset at the start of `fetch_all_orders` (lines 322-325); the
observation lists start empty for the run being modelled. -/
def resetState (st : FetcherState) : FetcherState :=
  { st with
    successful_fetches := 0,
    failed_fetches := 0,
    skipped_fetches := 0,
    outcomes := [],
    fetched := [],
    httpIssued := [] }

/-- `UrbanPiperOrderFetcher.fetch_all_orders` on an identifier list (the CSV
reading and blank-row filtering that produce the list are outside the model):
reset the counters, then process every identifier. -/
def fetch_all_orders (env : Env) (st : FetcherState) (ids : List String) : FetcherState :=
  runList env (resetState st) ids

/-- `UrbanPiperOrderFetcher.__init__` state for a fresh instance with an empty
`orders/` directory. -/
def initState : FetcherState :=
  { store := fun _ => none,
    successful_fetches := 0,
    failed_fetches := 0,
    skipped_fetches := 0,
    outcomes := [],
    fetched := [],
    httpIssued := [] }

/-! ### Equations for one processing step -/

/-- Sum of the three counters. -/
def sumCounters (st : FetcherState) : Nat :=
  st.successful_fetches + st.failed_fetches + st.skipped_fetches

theorem process_skip (env : Env) (st : FetcherState) (i : String)
    (h : (st.store i).isSome) :
    process_single_order env st i =
      ({ st with skipped_fetches := st.skipped_fetches + 1 }, Outcome.skipped) := by
  unfold process_single_order
  simp [h]

theorem process_success (env : Env) (st : FetcherState) (i : String) (d : Json)
    (h : st.store i = none) (hd : (fetch_order env i).1 = some d)
    (hs : env.saveOk i = true) :
    process_single_order env st i =
      ({ st with
          store := fun k => if k = i then some d else st.store k,
          successful_fetches := st.successful_fetches + 1,
          fetched := i :: st.fetched,
          httpIssued := if (fetch_order env i).2 then i :: st.httpIssued else st.httpIssued },
       Outcome.success) := by
  unfold process_single_order
  simp [h, hd, hs]

theorem process_failed (env : Env) (st : FetcherState) (i : String)
    (h : st.store i = none) (hd : (fetch_order env i).1 = none) :
    process_single_order env st i =
      ({ st with
          failed_fetches := st.failed_fetches + 1,
          fetched := i :: st.fetched,
          httpIssued := if (fetch_order env i).2 then i :: st.httpIssued else st.httpIssued },
       Outcome.failed) := by
  unfold process_single_order
  simp [h, hd]

theorem process_raisedSave (env : Env) (st : FetcherState) (i : String) (d : Json)
    (h : st.store i = none) (hd : (fetch_order env i).1 = some d)
    (hs : env.saveOk i = false) :
    process_single_order env st i =
      ({ st with
          fetched := i :: st.fetched,
          httpIssued := if (fetch_order env i).2 then i :: st.httpIssued else st.httpIssued },
       Outcome.raisedSave) := by
  unfold process_single_order
  simp [h, hd, hs]

theorem run_step_skip (env : Env) (st : FetcherState) (i : String)
    (h : (st.store i).isSome) :
    run_step env st i =
      { st with
          skipped_fetches := st.skipped_fetches + 1,
          outcomes := (i, Outcome.skipped) :: st.outcomes } := by
  unfold run_step
  rw [process_skip env st i h]

theorem run_step_success (env : Env) (st : FetcherState) (i : String) (d : Json)
    (h : st.store i = none) (hd : (fetch_order env i).1 = some d)
    (hs : env.saveOk i = true) :
    run_step env st i =
      { st with
          store := fun k => if k = i then some d else st.store k,
          successful_fetches := st.successful_fetches + 1,
          fetched := i :: st.fetched,
          httpIssued := if (fetch_order env i).2 then i :: st.httpIssued else st.httpIssued,
          outcomes := (i, Outcome.success) :: st.outcomes } := by
  unfold run_step
  rw [process_success env st i d h hd hs]

theorem run_step_failed (env : Env) (st : FetcherState) (i : String)
    (h : st.store i = none) (hd : (fetch_order env i).1 = none) :
    run_step env st i =
      { st with
          failed_fetches := st.failed_fetches + 1,
          fetched := i :: st.fetched,
          httpIssued := if (fetch_order env i).2 then i :: st.httpIssued else st.httpIssued,
          outcomes := (i, Outcome.failed) :: st.outcomes } := by
  unfold run_step
  rw [process_failed env st i h hd]

theorem run_step_raisedSave (env : Env) (st : FetcherState) (i : String) (d : Json)
    (h : st.store i = none) (hd : (fetch_order env i).1 = some d)
    (hs : env.saveOk i = false) :
    run_step env st i =
      { st with
          failed_fetches := st.failed_fetches + 1,
          fetched := i :: st.fetched,
          httpIssued := if (fetch_order env i).2 then i :: st.httpIssued else st.httpIssued,
          outcomes := (i, Outcome.raisedSave) :: st.outcomes } := by
  unfold run_step
  rw [process_raisedSave env st i d h hd hs]

/-! ### Step-level consequences -/

theorem sum_run_step (env : Env) (st : FetcherState) (i : String) :
    sumCounters (run_step env st i) = sumCounters st + 1 := by
  by_cases h : (st.store i).isSome
  · rw [run_step_skip env st i h]
    simp [sumCounters]
    omega
  · rw [Option.not_isSome_iff_eq_none] at h
    cases hd : (fetch_order env i).1 with
    | none =>
      rw [run_step_failed env st i h hd]
      simp [sumCounters]
      omega
    | some d =>
      cases hs : env.saveOk i
      · rw [run_step_raisedSave env st i d h hd hs]
        simp [sumCounters]
        omega
      · rw [run_step_success env st i d h hd hs]
        simp [sumCounters]
        omega

theorem store_run_step_ne (env : Env) (st : FetcherState) (i k : String) (h : k ≠ i) :
    (run_step env st i).store k = st.store k := by
  by_cases hst : (st.store i).isSome
  · rw [run_step_skip env st i hst]
  · rw [Option.not_isSome_iff_eq_none] at hst
    cases hd : (fetch_order env i).1 with
    | none => rw [run_step_failed env st i hst hd]
    | some d =>
      cases hs : env.saveOk i
      · rw [run_step_raisedSave env st i d hst hd hs]
      · rw [run_step_success env st i d hst hd hs]
        simp [h]

theorem store_isSome_run_step (env : Env) (st : FetcherState) (i k : String)
    (h : (st.store k).isSome) : ((run_step env st i).store k).isSome := by
  by_cases hk : k = i
  · subst hk
    rw [run_step_skip env st k h]
    exact h
  · rw [store_run_step_ne env st i k hk]
    exact h

theorem outcomes_run_step (env : Env) (st : FetcherState) (i : String) :
    ∃ oc : Outcome, (run_step env st i).outcomes = (i, oc) :: st.outcomes := by
  by_cases hst : (st.store i).isSome
  · exact ⟨Outcome.skipped, by rw [run_step_skip env st i hst]⟩
  · rw [Option.not_isSome_iff_eq_none] at hst
    cases hd : (fetch_order env i).1 with
    | none => exact ⟨Outcome.failed, by rw [run_step_failed env st i hst hd]⟩
    | some d =>
      cases hs : env.saveOk i
      · exact ⟨Outcome.raisedSave, by rw [run_step_raisedSave env st i d hst hd hs]⟩
      · exact ⟨Outcome.success, by rw [run_step_success env st i d hst hd hs]⟩

theorem succ_run_step_le (env : Env) (st : FetcherState) (i : String) :
    (run_step env st i).successful_fetches ≤ st.successful_fetches + 1 := by
  by_cases hst : (st.store i).isSome
  · rw [run_step_skip env st i hst]
    simp
  · rw [Option.not_isSome_iff_eq_none] at hst
    cases hd : (fetch_order env i).1 with
    | none =>
      rw [run_step_failed env st i hst hd]
      simp
    | some d =>
      cases hs : env.saveOk i
      · rw [run_step_raisedSave env st i d hst hd hs]
        simp
      · rw [run_step_success env st i d hst hd hs]

theorem succ_run_step_store (env : Env) (st : FetcherState) (i : String)
    (h : (run_step env st i).successful_fetches = st.successful_fetches + 1) :
    ((run_step env st i).store i).isSome := by
  by_cases hst : (st.store i).isSome
  · rw [run_step_skip env st i hst] at h ⊢
    · exact hst
  · rw [Option.not_isSome_iff_eq_none] at hst
    cases hd : (fetch_order env i).1 with
    | none =>
      rw [run_step_failed env st i hst hd] at h
      simp at h
    | some d =>
      cases hs : env.saveOk i
      · rw [run_step_raisedSave env st i d hst hd hs] at h
        simp at h
      · rw [run_step_success env st i d hst hd hs]
        simp

theorem mem_fetched_run_step (env : Env) (st : FetcherState) (i x : String)
    (h : x ∈ (run_step env st i).fetched) : x = i ∨ x ∈ st.fetched := by
  by_cases hst : (st.store i).isSome
  · rw [run_step_skip env st i hst] at h
    exact Or.inr h
  · rw [Option.not_isSome_iff_eq_none] at hst
    cases hd : (fetch_order env i).1 with
    | none =>
      rw [run_step_failed env st i hst hd] at h
      simpa using h
    | some d =>
      cases hs : env.saveOk i
      · rw [run_step_raisedSave env st i d hst hd hs] at h
        simpa using h
      · rw [run_step_success env st i d hst hd hs] at h
        simpa using h

theorem mem_httpIssued_run_step (env : Env) (st : FetcherState) (i x : String)
    (h : x ∈ (run_step env st i).httpIssued) : x = i ∨ x ∈ st.httpIssued := by
  by_cases hst : (st.store i).isSome
  · rw [run_step_skip env st i hst] at h
    exact Or.inr h
  · rw [Option.not_isSome_iff_eq_none] at hst
    cases hd : (fetch_order env i).1 with
    | none =>
      rw [run_step_failed env st i hst hd] at h
      dsimp at h
      split at h
      · simpa using h
      · exact Or.inr h
    | some d =>
      cases hs : env.saveOk i
      · rw [run_step_raisedSave env st i d hst hd hs] at h
        dsimp at h
        split at h
        · simpa using h
        · exact Or.inr h
      · rw [run_step_success env st i d hst hd hs] at h
        dsimp at h
        split at h
        · simpa using h
        · exact Or.inr h

/-! ### List-level lemmas -/

theorem runList_nil (env : Env) (st : FetcherState) : runList env st [] = st := rfl

theorem runList_cons (env : Env) (st : FetcherState) (i : String) (l : List String) :
    runList env st (i :: l) = runList env (run_step env st i) l := rfl

theorem runList_append (env : Env) (st : FetcherState) (l1 l2 : List String) :
    runList env st (l1 ++ l2) = runList env (runList env st l1) l2 := by
  simp [runList, List.foldl_append]

theorem sum_runList (env : Env) (l : List String) :
    ∀ st : FetcherState, sumCounters (runList env st l) = sumCounters st + l.length := by
  induction l with
  | nil => intro st; simp [runList_nil]
  | cons i l ih =>
    intro st
    rw [runList_cons, ih, sum_run_step]
    simp
    omega

theorem store_runList_ne (env : Env) (l : List String) :
    ∀ st : FetcherState, ∀ k : String, k ∉ l →
      (runList env st l).store k = st.store k := by
  induction l with
  | nil => intro st k _; rfl
  | cons i l ih =>
    intro st k hk
    rw [runList_cons, ih (run_step env st i) k (fun h => hk (List.mem_cons_of_mem i h))]
    exact store_run_step_ne env st i k (fun h => hk (h ▸ List.mem_cons_self i l))

theorem store_isSome_runList (env : Env) (l : List String) :
    ∀ st : FetcherState, ∀ k : String, (st.store k).isSome →
      ((runList env st l).store k).isSome := by
  induction l with
  | nil => intro st k h; exact h
  | cons i l ih =>
    intro st k h
    rw [runList_cons]
    exact ih (run_step env st i) k (store_isSome_run_step env st i k h)

theorem succ_runList_le (env : Env) (l : List String) :
    ∀ st : FetcherState,
      (runList env st l).successful_fetches ≤ st.successful_fetches + l.length := by
  induction l with
  | nil => intro st; simp [runList_nil]
  | cons i l ih =>
    intro st
    rw [runList_cons]
    calc (runList env (run_step env st i) l).successful_fetches
        ≤ (run_step env st i).successful_fetches + l.length := ih (run_step env st i)
      _ ≤ st.successful_fetches + 1 + l.length :=
          Nat.add_le_add_right (succ_run_step_le env st i) l.length
      _ = st.successful_fetches + (i :: l).length := by simp; omega

theorem all_stored_of_succ (env : Env) (l : List String) :
    ∀ st : FetcherState,
      (runList env st l).successful_fetches = st.successful_fetches + l.length →
      ∀ i ∈ l, ((runList env st l).store i).isSome := by
  induction l with
  | nil => intro st _ i hi; cases hi
  | cons j l ih =>
    intro st h i hi
    rw [runList_cons] at h ⊢
    have hle1 : (runList env (run_step env st j) l).successful_fetches
        ≤ (run_step env st j).successful_fetches + l.length := succ_runList_le env l _
    have hle2 : (run_step env st j).successful_fetches ≤ st.successful_fetches + 1 :=
      succ_run_step_le env st j
    have hstep : (run_step env st j).successful_fetches = st.successful_fetches + 1 := by
      simp at h
      omega
    have hrest : (runList env (run_step env st j) l).successful_fetches
        = (run_step env st j).successful_fetches + l.length := by
      simp at h
      omega
    rcases List.mem_cons.mp hi with hij | hil
    · subst hij
      exact store_isSome_runList env l (run_step env st i) i
        (succ_run_step_store env st i hstep)
    · exact ih (run_step env st j) hrest i hil

theorem runList_all_skip (env : Env) (l : List String) :
    ∀ st : FetcherState, (∀ i ∈ l, (st.store i).isSome) →
      (runList env st l).successful_fetches = st.successful_fetches ∧
      (runList env st l).failed_fetches = st.failed_fetches ∧
      (runList env st l).skipped_fetches = st.skipped_fetches + l.length ∧
      (runList env st l).store = st.store := by
  induction l with
  | nil => intro st _; exact ⟨rfl, rfl, by simp [runList_nil], rfl⟩
  | cons i l ih =>
    intro st h
    have hi : (st.store i).isSome := h i (List.mem_cons_self i l)
    rw [runList_cons, run_step_skip env st i hi]
    have h' : ∀ j ∈ l, (({ st with
        skipped_fetches := st.skipped_fetches + 1,
        outcomes := (i, Outcome.skipped) :: st.outcomes } : FetcherState).store j).isSome := by
      intro j hj
      exact h j (List.mem_cons_of_mem i hj)
    rcases ih _ h' with ⟨h1, h2, h3, h4⟩
    refine ⟨h1, h2, ?_, h4⟩
    rw [h3]
    simp
    omega

theorem mem_outcomes_runList (env : Env) (l : List String) :
    ∀ st : FetcherState, ∀ x : String × Outcome, x ∈ st.outcomes →
      x ∈ (runList env st l).outcomes := by
  induction l with
  | nil => intro st x h; exact h
  | cons i l ih =>
    intro st x h
    rw [runList_cons]
    rcases outcomes_run_step env st i with ⟨oc, hoc⟩
    exact ih (run_step env st i) x (by rw [hoc]; exact List.mem_cons_of_mem _ h)

theorem countP_outcomes_runList (env : Env) (l : List String) (Y : String) :
    ∀ st : FetcherState, Y ∉ l →
      ((runList env st l).outcomes.countP (fun p => p.1 == Y))
        = st.outcomes.countP (fun p => p.1 == Y) := by
  induction l with
  | nil => intro st _; rfl
  | cons i l ih =>
    intro st hY
    rw [runList_cons, ih (run_step env st i) (fun h => hY (List.mem_cons_of_mem i h))]
    rcases outcomes_run_step env st i with ⟨oc, hoc⟩
    rw [hoc, List.countP_cons]
    have hne : ((i, oc).1 == Y) = false := by
      simp
      exact fun h => hY (h ▸ List.mem_cons_self i l)
    rw [hne]
    simp

theorem mem_fetched_runList (env : Env) (l : List String) :
    ∀ st : FetcherState, ∀ x : String, x ∈ (runList env st l).fetched →
      x ∈ l ∨ x ∈ st.fetched := by
  induction l with
  | nil => intro st x h; exact Or.inr h
  | cons i l ih =>
    intro st x h
    rw [runList_cons] at h
    rcases ih (run_step env st i) x h with hl | hs
    · exact Or.inl (List.mem_cons_of_mem i hl)
    · rcases mem_fetched_run_step env st i x hs with hxi | hx
      · exact Or.inl (hxi ▸ List.mem_cons_self i l)
      · exact Or.inr hx

theorem mem_httpIssued_runList (env : Env) (l : List String) :
    ∀ st : FetcherState, ∀ x : String, x ∈ (runList env st l).httpIssued →
      x ∈ l ∨ x ∈ st.httpIssued := by
  induction l with
  | nil => intro st x h; exact Or.inr h
  | cons i l ih =>
    intro st x h
    rw [runList_cons] at h
    rcases ih (run_step env st i) x h with hl | hs
    · exact Or.inl (List.mem_cons_of_mem i hl)
    · rcases mem_httpIssued_run_step env st i x hs with hxi | hx
      · exact Or.inl (hxi ▸ List.mem_cons_self i l)
      · exact Or.inr hx

theorem exists_split_of_nodup_mem {Y : String} {ids : List String}
    (hnd : ids.Nodup) (hmem : Y ∈ ids) :
    ∃ pre post, ids = pre ++ Y :: post ∧ Y ∉ pre ∧ Y ∉ post := by
  rcases List.append_of_mem hmem with ⟨pre, post, rfl⟩
  rw [List.nodup_append] at hnd
  rcases hnd with ⟨_, hnd2, hdisj⟩
  refine ⟨pre, post, rfl, ?_, ?_⟩
  · intro hY
    exact hdisj hY (List.mem_cons_self Y post)
  · exact (List.nodup_cons.mp hnd2).1

/-! ### Concrete environments used by the witnesses -/

/-- Endpoint behaviour where identifier "1" gets a 200 with a parseable body
and every other identifier gets a 404; all writes succeed. -/
def envA : Env :=
  { http := fun id =>
      if id == "1" then HttpResult.response 200 (some (Json.num 5))
      else HttpResult.response 404 none,
    saveOk := fun _ => true }

/-- Endpoint behaviour where every identifier gets a 200 with a parseable
body and all writes succeed. -/
def envAll : Env :=
  { http := fun _ => HttpResult.response 200 (some Json.null),
    saveOk := fun _ => true }

/-- Endpoint behaviour where every identifier gets a 200 with a parseable
body, but the local write for identifier "1" raises an I/O error. -/
def envC2 : Env :=
  { http := fun id =>
      if id == "1" then HttpResult.response 200 (some (Json.num 1))
      else HttpResult.response 200 (some (Json.num 2)),
    saveOk := fun id => !(id == "1") }

/-- A reused fetcher instance carrying stale counters and observations from a
previous run, over an empty `orders/` directory. -/
def staleState : FetcherState :=
  { store := fun _ => none,
    successful_fetches := 3,
    failed_fetches := 4,
    skipped_fetches := 5,
    outcomes := [("9", Outcome.failed)],
    fetched := ["9"],
    httpIssued := ["9"] }

/-! ### Claims -/

/-- Claim C1: for every duplicate-free identifier list of size N, after
`fetch_all_orders` completes the counters satisfy
`successful_fetches + failed_fetches + skipped_fetches = N`: each identifier
is processed once and contributes exactly one counter increment. -/
theorem claim_c1 (env : Env) (st : FetcherState) (ids : List String)
    (hnd : ids.Nodup) :
    (fetch_all_orders env st ids).successful_fetches
      + (fetch_all_orders env st ids).failed_fetches
      + (fetch_all_orders env st ids).skipped_fetches = ids.length := by
  have h := sum_runList env ids (resetState st)
  unfold sumCounters at h
  unfold fetch_all_orders
  simpa [resetState] using h

theorem claim_c1_witness :
    (["1", "2"] : List String).Nodup ∧
    (fetch_all_orders envA initState ["1", "2"]).successful_fetches
      + (fetch_all_orders envA initState ["1", "2"]).failed_fetches
      + (fetch_all_orders envA initState ["1", "2"]).skipped_fetches = 2 :=
  ⟨by decide, claim_c1 envA initState ["1", "2"] (by decide)⟩

/-- Claim C9: `fetch_all_orders` resets the three counters before processing,
so its result depends only on the store contents of the instance it is called
on — reusing an instance whose counters and observations hold stale values
from an earlier run yields the same outcome as a pristine instance with the
same store. -/
theorem claim_c9 (env : Env) (st1 st2 : FetcherState) (ids : List String)
    (h : st1.store = st2.store) :
    fetch_all_orders env st1 ids = fetch_all_orders env st2 ids := by
  unfold fetch_all_orders
  have hr : resetState st1 = resetState st2 := by
    unfold resetState
    cases st1
    cases st2
    simp_all
  rw [hr]

theorem claim_c9_witness :
    staleState.store = initState.store ∧
    fetch_all_orders envA staleState ["1"] = fetch_all_orders envA initState ["1"] :=
  ⟨rfl, claim_c9 envA staleState initState ["1"] rfl⟩

/-- Claim C6: if a run over `ids` succeeded for all `ids.length` identifiers,
an immediate second run over the same list (no store entries removed) skips
every identifier: `skipped = N`, `successful = 0`, `failed = 0`. -/
theorem claim_c6 (env : Env) (st : FetcherState) (ids : List String)
    (h : (fetch_all_orders env st ids).successful_fetches = ids.length) :
    (fetch_all_orders env (fetch_all_orders env st ids) ids).skipped_fetches = ids.length ∧
    (fetch_all_orders env (fetch_all_orders env st ids) ids).successful_fetches = 0 ∧
    (fetch_all_orders env (fetch_all_orders env st ids) ids).failed_fetches = 0 := by
  have hz : (resetState st).successful_fetches = 0 := rfl
  have hsucc : (runList env (resetState st) ids).successful_fetches
      = (resetState st).successful_fetches + ids.length := by
    rw [hz, Nat.zero_add]
    exact h
  have hall : ∀ i ∈ ids,
      ((resetState (fetch_all_orders env st ids)).store i).isSome := by
    intro i hi
    exact all_stored_of_succ env ids (resetState st) hsucc i hi
  rcases runList_all_skip env ids (resetState (fetch_all_orders env st ids)) hall
    with ⟨h1, h2, h3, _⟩
  refine ⟨?_, ?_, ?_⟩
  · show (runList env (resetState (fetch_all_orders env st ids)) ids).skipped_fetches
      = ids.length
    have hz2 : (resetState (fetch_all_orders env st ids)).skipped_fetches = 0 := rfl
    omega
  · exact h1
  · exact h2

theorem claim_c6_witness :
    (fetch_all_orders envAll initState ["1", "2"]).successful_fetches = 2 ∧
    ((fetch_all_orders envAll (fetch_all_orders envAll initState ["1", "2"])
        ["1", "2"]).skipped_fetches = 2 ∧
     (fetch_all_orders envAll (fetch_all_orders envAll initState ["1", "2"])
        ["1", "2"]).successful_fetches = 0 ∧
     (fetch_all_orders envAll (fetch_all_orders envAll initState ["1", "2"])
        ["1", "2"]).failed_fetches = 0) :=
  ⟨rfl, claim_c6 envAll initState ["1", "2"] rfl⟩

/-- Claim C2 counterexample: in a batch where the local write for identifier
"1" raises an I/O error after a successful fetch, the run does not abort —
identifier "2", submitted after "1", is still processed: its fetch succeeds,
its file is written, and the write error on "1" is recorded as one failed
fetch. -/
theorem claim_c2_counterexample :
    ("1", Outcome.raisedSave) ∈ (fetch_all_orders envC2 initState ["1", "2"]).outcomes ∧
    (fetch_all_orders envC2 initState ["1", "2"]).failed_fetches = 1 ∧
    ("2", Outcome.success) ∈ (fetch_all_orders envC2 initState ["1", "2"]).outcomes ∧
    (fetch_all_orders envC2 initState ["1", "2"]).store "2"
      = some (Json.obj [("data", Json.num 2)]) :=
  ⟨by decide, rfl, by decide, rfl⟩

/-- Claim C2 (amended): an I/O error raised by `save_order` propagates out of
`process_single_order`, but the `as_completed` loop of `fetch_all_orders`
catches it, counts that identifier as one failed fetch (no success or skip
recorded), and the remaining identifiers are still processed — the batch run
does not abort. -/
theorem claim_c2_amended (env : Env) (st : FetcherState) (pre post : List String)
    (bad : String) (d : Json)
    (hstore : (runList env (resetState st) pre).store bad = none)
    (hfetch : (fetch_order env bad).1 = some d)
    (hsave : env.saveOk bad = false) :
    fetch_all_orders env st (pre ++ bad :: post)
      = runList env (run_step env (runList env (resetState st) pre) bad) post ∧
    (run_step env (runList env (resetState st) pre) bad).failed_fetches
      = (runList env (resetState st) pre).failed_fetches + 1 ∧
    (run_step env (runList env (resetState st) pre) bad).successful_fetches
      = (runList env (resetState st) pre).successful_fetches ∧
    (run_step env (runList env (resetState st) pre) bad).skipped_fetches
      = (runList env (resetState st) pre).skipped_fetches := by
  refine ⟨?_, ?_, ?_, ?_⟩
  · unfold fetch_all_orders
    rw [runList_append]
    rfl
  all_goals rw [run_step_raisedSave env _ bad d hstore hfetch hsave]

theorem claim_c2_amended_witness :
    (runList envC2 (resetState initState) []).store "1" = none ∧
    (fetch_order envC2 "1").1 = some (Json.obj [("data", Json.num 1)]) ∧
    envC2.saveOk "1" = false ∧
    (fetch_all_orders envC2 initState ([] ++ "1" :: ["2"])
        = runList envC2
            (run_step envC2 (runList envC2 (resetState initState) []) "1") ["2"] ∧
      (run_step envC2 (runList envC2 (resetState initState) []) "1").failed_fetches
        = (runList envC2 (resetState initState) []).failed_fetches + 1 ∧
      (run_step envC2 (runList envC2 (resetState initState) []) "1").successful_fetches
        = (runList envC2 (resetState initState) []).successful_fetches ∧
      (run_step envC2 (runList envC2 (resetState initState) []) "1").skipped_fetches
        = (runList envC2 (resetState initState) []).skipped_fetches) :=
  ⟨rfl, rfl, rfl,
    claim_c2_amended envC2 initState [] ["2"] "1" (Json.obj [("data", Json.num 1)])
      rfl rfl rfl⟩

/-- Claim C3: for an identifier Y whose entry is initially absent, whose
payload is well-formed, and whose fetch receives a 200 status with a
JSON-parseable body D (and whose local write does not raise), the run records
Success for Y exactly once and the file at Y's store key parses back to D
nested under a top-level "data" key. -/
theorem claim_c3 (env : Env) (st : FetcherState) (ids : List String)
    (Y : String) (D : Json)
    (hnd : ids.Nodup) (hmem : Y ∈ ids)
    (hstore : st.store Y = none)
    (hparse : (pythonIntParse Y).isSome)
    (hhttp : env.http Y = HttpResult.response 200 (some D))
    (hsave : env.saveOk Y = true) :
    (fetch_all_orders env st ids).store Y = some (Json.obj [("data", D)]) ∧
    (Y, Outcome.success) ∈ (fetch_all_orders env st ids).outcomes ∧
    (fetch_all_orders env st ids).outcomes.countP (fun p => p.1 == Y) = 1 := by
  have hf : (fetch_order env Y).1 = some (Json.obj [("data", D)]) := by
    rcases Option.isSome_iff_exists.mp hparse with ⟨n, hn⟩
    simp [fetch_order, hn, hhttp]
  rcases exists_split_of_nodup_mem hnd hmem with ⟨pre, post, rfl, hYpre, hYpost⟩
  unfold fetch_all_orders
  rw [runList_append, runList_cons]
  have hAstore : (runList env (resetState st) pre).store Y = none := by
    rw [store_runList_ne env pre (resetState st) Y hYpre]
    exact hstore
  rw [run_step_success env (runList env (resetState st) pre) Y
    (Json.obj [("data", D)]) hAstore hf hsave]
  refine ⟨?_, ?_, ?_⟩
  · rw [store_runList_ne env post _ Y hYpost]
    simp
  · apply mem_outcomes_runList
    show (Y, Outcome.success) ∈ (Y, Outcome.success)
      :: (runList env (resetState st) pre).outcomes
    exact List.mem_cons_self _ _
  · rw [countP_outcomes_runList env post Y _ hYpost]
    show List.countP (fun p => p.1 == Y)
      ((Y, Outcome.success) :: (runList env (resetState st) pre).outcomes) = 1
    rw [List.countP_cons, countP_outcomes_runList env pre Y (resetState st) hYpre]
    have hz : (resetState st).outcomes = ([] : List (String × Outcome)) := rfl
    rw [hz]
    simp

theorem httpIssued_run_step_noreq (env : Env) (st : FetcherState) (i : String)
    (hf : (fetch_order env i).2 = false) :
    (run_step env st i).httpIssued = st.httpIssued := by
  by_cases hst : (st.store i).isSome
  · rw [run_step_skip env st i hst]
  · rw [Option.not_isSome_iff_eq_none] at hst
    cases hd : (fetch_order env i).1 with
    | none =>
      rw [run_step_failed env st i hst hd]
      show (if (fetch_order env i).2 then i :: st.httpIssued else st.httpIssued)
        = st.httpIssued
      rw [hf]
      simp
    | some d =>
      cases hs : env.saveOk i
      · rw [run_step_raisedSave env st i d hst hd hs]
        show (if (fetch_order env i).2 then i :: st.httpIssued else st.httpIssued)
          = st.httpIssued
        rw [hf]
        simp
      · rw [run_step_success env st i d hst hd hs]
        show (if (fetch_order env i).2 then i :: st.httpIssued else st.httpIssued)
          = st.httpIssued
        rw [hf]
        simp

/-- Claim C4: for an identifier X whose entry is initially absent and whose
payload is well-formed, a response that is either a non-200 status or a 200
status with an unparseable body makes the run record Failed for X exactly
once and create no file at X's store key; both failure shapes reach the same
conclusion. -/
theorem claim_c4 (env : Env) (st : FetcherState) (ids : List String)
    (X : String) (s : Nat) (b : Option Json)
    (hnd : ids.Nodup) (hmem : X ∈ ids)
    (hstore : st.store X = none)
    (hparse : (pythonIntParse X).isSome)
    (hhttp : env.http X = HttpResult.response s b)
    (hfail : s ≠ 200 ∨ b = none) :
    (fetch_all_orders env st ids).store X = none ∧
    (X, Outcome.failed) ∈ (fetch_all_orders env st ids).outcomes ∧
    (fetch_all_orders env st ids).outcomes.countP (fun p => p.1 == X) = 1 := by
  have hf : (fetch_order env X).1 = none := by
    rcases Option.isSome_iff_exists.mp hparse with ⟨n, hn⟩
    rcases hfail with h200 | hbody
    · simp [fetch_order, hn, hhttp, h200]
    · by_cases hs : s = 200 <;> simp [fetch_order, hn, hhttp, hs, hbody]
  rcases exists_split_of_nodup_mem hnd hmem with ⟨pre, post, rfl, hXpre, hXpost⟩
  unfold fetch_all_orders
  rw [runList_append, runList_cons]
  have hAstore : (runList env (resetState st) pre).store X = none := by
    rw [store_runList_ne env pre (resetState st) X hXpre]
    exact hstore
  rw [run_step_failed env (runList env (resetState st) pre) X hAstore hf]
  refine ⟨?_, ?_, ?_⟩
  · rw [store_runList_ne env post _ X hXpost]
    exact hAstore
  · apply mem_outcomes_runList
    show (X, Outcome.failed) ∈ (X, Outcome.failed)
      :: (runList env (resetState st) pre).outcomes
    exact List.mem_cons_self _ _
  · rw [countP_outcomes_runList env post X _ hXpost]
    show List.countP (fun p => p.1 == X)
      ((X, Outcome.failed) :: (runList env (resetState st) pre).outcomes) = 1
    rw [List.countP_cons, countP_outcomes_runList env pre X (resetState st) hXpre]
    have hz : (resetState st).outcomes = ([] : List (String × Outcome)) := rfl
    rw [hz]
    simp

/-- Claim C8: an identifier X that Python `int()` cannot parse makes
`fetch_order` return the failure signal with no HTTP request issued, and the
run records Failed for X exactly once with no file created at X's store
key. -/
theorem claim_c8 (env : Env) (st : FetcherState) (ids : List String) (X : String)
    (hnd : ids.Nodup) (hmem : X ∈ ids)
    (hstore : st.store X = none)
    (hparse : pythonIntParse X = none) :
    fetch_order env X = (none, false) ∧
    (fetch_all_orders env st ids).store X = none ∧
    (X, Outcome.failed) ∈ (fetch_all_orders env st ids).outcomes ∧
    (fetch_all_orders env st ids).outcomes.countP (fun p => p.1 == X) = 1 ∧
    X ∉ (fetch_all_orders env st ids).httpIssued := by
  have hf2 : fetch_order env X = (none, false) := by
    simp [fetch_order, hparse]
  have hfst : (fetch_order env X).1 = none := by rw [hf2]
  rcases exists_split_of_nodup_mem hnd hmem with ⟨pre, post, rfl, hXpre, hXpost⟩
  unfold fetch_all_orders
  rw [runList_append, runList_cons]
  have hAstore : (runList env (resetState st) pre).store X = none := by
    rw [store_runList_ne env pre (resetState st) X hXpre]
    exact hstore
  refine ⟨hf2, ?_, ?_, ?_, ?_⟩
  · rw [run_step_failed env (runList env (resetState st) pre) X hAstore hfst,
      store_runList_ne env post _ X hXpost]
    exact hAstore
  · rw [run_step_failed env (runList env (resetState st) pre) X hAstore hfst]
    apply mem_outcomes_runList
    show (X, Outcome.failed) ∈ (X, Outcome.failed)
      :: (runList env (resetState st) pre).outcomes
    exact List.mem_cons_self _ _
  · rw [run_step_failed env (runList env (resetState st) pre) X hAstore hfst,
      countP_outcomes_runList env post X _ hXpost]
    show List.countP (fun p => p.1 == X)
      ((X, Outcome.failed) :: (runList env (resetState st) pre).outcomes) = 1
    rw [List.countP_cons, countP_outcomes_runList env pre X (resetState st) hXpre]
    have hz : (resetState st).outcomes = ([] : List (String × Outcome)) := rfl
    rw [hz]
    simp
  · intro hmemH
    rcases mem_httpIssued_runList env post _ X hmemH with hp | hb
    · exact hXpost hp
    · rw [httpIssued_run_step_noreq env (runList env (resetState st) pre) X
        (by rw [hf2])] at hb
      rcases mem_httpIssued_runList env pre _ X hb with hp2 | hb2
      · exact hXpre hp2
      · exact (List.not_mem_nil X) hb2

/-- Claim C5: an identifier Y whose store entry exists before the run is
recorded Skipped exactly once, `fetch_order` is never invoked for it, and its
stored content is unchanged after the run. -/
theorem claim_c5 (env : Env) (st : FetcherState) (ids : List String)
    (Y : String) (v : Json)
    (hnd : ids.Nodup) (hmem : Y ∈ ids)
    (hstore : st.store Y = some v) :
    (fetch_all_orders env st ids).store Y = some v ∧
    (Y, Outcome.skipped) ∈ (fetch_all_orders env st ids).outcomes ∧
    (fetch_all_orders env st ids).outcomes.countP (fun p => p.1 == Y) = 1 ∧
    Y ∉ (fetch_all_orders env st ids).fetched := by
  rcases exists_split_of_nodup_mem hnd hmem with ⟨pre, post, rfl, hYpre, hYpost⟩
  unfold fetch_all_orders
  rw [runList_append, runList_cons]
  have hAstore : (runList env (resetState st) pre).store Y = some v := by
    rw [store_runList_ne env pre (resetState st) Y hYpre]
    exact hstore
  have hAsome : ((runList env (resetState st) pre).store Y).isSome := by
    rw [hAstore]
    rfl
  refine ⟨?_, ?_, ?_, ?_⟩
  · rw [run_step_skip env (runList env (resetState st) pre) Y hAsome,
      store_runList_ne env post _ Y hYpost]
    exact hAstore
  · rw [run_step_skip env (runList env (resetState st) pre) Y hAsome]
    apply mem_outcomes_runList
    show (Y, Outcome.skipped) ∈ (Y, Outcome.skipped)
      :: (runList env (resetState st) pre).outcomes
    exact List.mem_cons_self _ _
  · rw [run_step_skip env (runList env (resetState st) pre) Y hAsome,
      countP_outcomes_runList env post Y _ hYpost]
    show List.countP (fun p => p.1 == Y)
      ((Y, Outcome.skipped) :: (runList env (resetState st) pre).outcomes) = 1
    rw [List.countP_cons, countP_outcomes_runList env pre Y (resetState st) hYpre]
    have hz : (resetState st).outcomes = ([] : List (String × Outcome)) := rfl
    rw [hz]
    simp
  · intro hmemF
    rcases mem_fetched_runList env post _ Y hmemF with hp | hb
    · exact hYpost hp
    · have hb' : Y ∈ (run_step env (runList env (resetState st) pre) Y).fetched := hb
      rw [run_step_skip env (runList env (resetState st) pre) Y hAsome] at hb'
      have hb'' : Y ∈ (runList env (resetState st) pre).fetched := hb'
      rcases mem_fetched_runList env pre _ Y hb'' with hp2 | hb2
      · exact hYpre hp2
      · exact (List.not_mem_nil Y) hb2

/-- An instance state whose `orders/` directory already holds an entry for
identifier "1". -/
def storedState : FetcherState :=
  { store := fun id => if id == "1" then some Json.null else none,
    successful_fetches := 0,
    failed_fetches := 0,
    skipped_fetches := 0,
    outcomes := [],
    fetched := [],
    httpIssued := [] }

theorem claim_c3_witness :
    (["1", "2"] : List String).Nodup ∧
    ((fetch_all_orders envA initState ["1", "2"]).store "1"
        = some (Json.obj [("data", Json.num 5)]) ∧
      ("1", Outcome.success) ∈ (fetch_all_orders envA initState ["1", "2"]).outcomes ∧
      (fetch_all_orders envA initState ["1", "2"]).outcomes.countP
        (fun p => p.1 == "1") = 1) :=
  ⟨by decide,
    claim_c3 envA initState ["1", "2"] "1" (Json.num 5)
      (by decide) (by decide) rfl (by decide) rfl rfl⟩

theorem claim_c4_witness :
    (["1", "2"] : List String).Nodup ∧
    (404 ≠ 200 ∨ (none : Option Json) = none) ∧
    ((fetch_all_orders envA initState ["1", "2"]).store "2" = none ∧
      ("2", Outcome.failed) ∈ (fetch_all_orders envA initState ["1", "2"]).outcomes ∧
      (fetch_all_orders envA initState ["1", "2"]).outcomes.countP
        (fun p => p.1 == "2") = 1) :=
  ⟨by decide, Or.inl (by decide),
    claim_c4 envA initState ["1", "2"] "2" 404 none
      (by decide) (by decide) rfl (by decide) rfl (Or.inl (by decide))⟩

theorem claim_c8_witness :
    pythonIntParse "abc" = none ∧
    (fetch_order envA "abc" = (none, false) ∧
      (fetch_all_orders envA initState ["abc", "1"]).store "abc" = none ∧
      ("abc", Outcome.failed) ∈ (fetch_all_orders envA initState ["abc", "1"]).outcomes ∧
      (fetch_all_orders envA initState ["abc", "1"]).outcomes.countP
        (fun p => p.1 == "abc") = 1 ∧
      "abc" ∉ (fetch_all_orders envA initState ["abc", "1"]).httpIssued) :=
  ⟨by decide,
    claim_c8 envA initState ["abc", "1"] "abc" (by decide) (by decide) rfl (by decide)⟩

theorem claim_c5_witness :
    storedState.store "1" = some Json.null ∧
    ((fetch_all_orders envA storedState ["1", "2"]).store "1" = some Json.null ∧
      ("1", Outcome.skipped) ∈ (fetch_all_orders envA storedState ["1", "2"]).outcomes ∧
      (fetch_all_orders envA storedState ["1", "2"]).outcomes.countP
        (fun p => p.1 == "1") = 1 ∧
      "1" ∉ (fetch_all_orders envA storedState ["1", "2"]).fetched) :=
  ⟨rfl,
    claim_c5 envA storedState ["1", "2"] "1" Json.null (by decide) (by decide) rfl⟩

/-! ### File-level model of save_order for the write-atomicity analysis -/

/-- Observable state of the file at one store key: absent, created by
`open(filename, "w")` but with the document not yet fully written, or holding
the complete document. -/
inductive FileContent where
  | absent : FileContent
  | beingWritten : FileContent
  | complete (doc : Json) : FileContent

/-- Primitive filesystem effects: creating/truncating a file at a path, and
finishing writing a document to it. -/
inductive FsOp where
  | createTruncate (key : String) : FsOp
  | writeContent (key : String) (doc : Json) : FsOp

/-- The sequence of filesystem effects performed by
`UrbanPiperOrderFetcher.save_order`: `open(filename, "w")` creates (or
truncates) the file at the final path `orders/<order_id>.json` first, then
`json.dump` writes the document into it.  No temporary file is used and no
rename occurs. -/
def save_orderOps (order_id : String) (doc : Json) : List FsOp :=
  [FsOp.createTruncate order_id, FsOp.writeContent order_id doc]

/-- Effect of one filesystem operation on the per-key file contents. -/
def applyOp (fs : String → FileContent) : FsOp → (String → FileContent)
  | FsOp.createTruncate k => fun q => if q = k then FileContent.beingWritten else fs q
  | FsOp.writeContent k d => fun q => if q = k then FileContent.complete d else fs q

/-- Every filesystem state reachable while a list of operations executes,
including the states before the first and after the last operation.  A
concurrent `exists` check can run at any of these points. -/
def statesDuring (fs : String → FileContent) : List FsOp → List (String → FileContent)
  | [] => [fs]
  | op :: rest => fs :: statesDuring (applyOp fs op) rest

/-- The `Path.exists()` test used by `process_single_order`: true for any
file present at the path, whether or not its content is complete. -/
def fileSeen : FileContent → Bool
  | FileContent.absent => false
  | FileContent.beingWritten => true
  | FileContent.complete _ => true

/-- Claim C7 is false of the code: `save_order` is not
write-to-temp-then-rename.  For any identifier whose file is initially
absent, executing `save_orderOps` passes through a state in which a
concurrent existence check already sees the file although it does not yet
contain the complete document. -/
theorem claim_c7_not_atomic (order_id : String) (doc : Json)
    (fs : String → FileContent) (hfs : fs order_id = FileContent.absent) :
    ∃ s ∈ statesDuring fs (save_orderOps order_id doc),
      fileSeen (s order_id) = true ∧ s order_id ≠ FileContent.complete doc := by
  refine ⟨applyOp fs (FsOp.createTruncate order_id), ?_, ?_, ?_⟩
  · show _ ∈ statesDuring fs
      (FsOp.createTruncate order_id :: [FsOp.writeContent order_id doc])
    rw [statesDuring]
    exact List.mem_cons_of_mem _ (by rw [statesDuring]; exact List.mem_cons_self _ _)
  · show fileSeen (if order_id = order_id then FileContent.beingWritten
      else fs order_id) = true
    simp [fileSeen]
  · show (if order_id = order_id then FileContent.beingWritten else fs order_id)
      ≠ FileContent.complete doc
    simp

theorem claim_c7_not_atomic_witness :
    ((fun _ : String => FileContent.absent) "896024925" = FileContent.absent) ∧
    ∃ s ∈ statesDuring (fun _ => FileContent.absent)
        (save_orderOps "896024925" Json.null),
      fileSeen (s "896024925") = true ∧ s "896024925" ≠ FileContent.complete Json.null :=
  ⟨rfl, claim_c7_not_atomic "896024925" Json.null (fun _ => FileContent.absent) rfl⟩

/-! ### Session construction (C10) -/

/-- Python truthiness of an optional credential string: `None` and the empty
string are falsy. -/
def truthy : Option String → Bool
  | none => false
  | some s => !(s == "")

/-- The fixed headers `_create_session` applies to every session (lines
62-77 of `fetch_orders.py`). -/
def commonHeaders : List (String × String) :=
  [("accept", "*/*"),
   ("accept-language", "en-US,en;q=0.9"),
   ("content-type", "application/json"),
   ("dnt", "1"),
   ("origin", "https://atlas.urbanpiper.com"),
   ("referer", "https://atlas.urbanpiper.com/"),
   ("sec-ch-ua", "\"Not)A;Brand\";v=\"8\", \"Chromium\";v=\"138\""),
   ("sec-ch-ua-mobile", "?0"),
   ("sec-ch-ua-platform", "\"macOS\""),
   ("sec-fetch-dest", "empty"),
   ("sec-fetch-mode", "cors"),
   ("sec-fetch-site", "same-site"),
   ("user-access", "true"),
   ("user-agent", "Mozilla/5.0 (Macintosh; Intel Mac OS X 10_15_7) AppleWebKit/537.36 (KHTML, like Gecko) Chrome/138.0.0.0 Safari/537.36")]

/-- `UrbanPiperOrderFetcher._create_session`: if the auth token is truthy the
Authorization header is set; only otherwise (`elif`), if the cookie is
truthy, the Cookie header is set; then the fixed common headers are added
(none of which touches Authorization or Cookie). -/
def createSessionHeaders (auth_token cookie : Option String) : List (String × String) :=
  (if truthy auth_token then [("Authorization", "Bearer " ++ auth_token.getD "")]
   else if truthy cookie then [("Cookie", cookie.getD "")]
   else [])
  ++ commonHeaders

/-- Claim C10: when both a bearer auth token and a cookie string are
configured, the session carries the Authorization Bearer header and no Cookie
header at all — the cookie credential is ignored in that case. -/
theorem claim_c10 (tok ck : String)
    (htok : truthy (some tok) = true) (hck : truthy (some ck) = true) :
    ("Authorization", "Bearer " ++ tok) ∈ createSessionHeaders (some tok) (some ck) ∧
    ∀ kv ∈ createSessionHeaders (some tok) (some ck), kv.1 ≠ "Cookie" := by
  have hform : createSessionHeaders (some tok) (some ck)
      = ("Authorization", "Bearer " ++ tok) :: commonHeaders := by
    unfold createSessionHeaders
    rw [htok]
    rfl
  constructor
  · rw [hform]
    exact List.mem_cons_self _ _
  · intro kv hkv
    rw [hform] at hkv
    rcases List.mem_cons.mp hkv with h | h
    · rw [h]
      show "Authorization" ≠ "Cookie"
      decide
    · simp only [commonHeaders, List.mem_cons, List.not_mem_nil, or_false] at h
      rcases h with h | h | h | h | h | h | h | h | h | h | h | h | h | h <;>
        (rw [h]; decide)

theorem claim_c10_witness :
    truthy (some "tok123") = true ∧
    truthy (some "session=abc") = true ∧
    (("Authorization", "Bearer " ++ "tok123")
        ∈ createSessionHeaders (some "tok123") (some "session=abc") ∧
      ∀ kv ∈ createSessionHeaders (some "tok123") (some "session=abc"),
        kv.1 ≠ "Cookie") :=
  ⟨by decide, by decide, claim_c10 "tok123" "session=abc" (by decide) (by decide)⟩
